import Mathlib

/-!
Verification model of `my_service.py`, a small MQTT agent.

The Python program is shallowly embedded: the `MqttClient` class becomes a
structure holding its configuration fields and the update counter; each of
its methods becomes a pure function returning the list of observable
`Effect`s it performs (publishes, will registration, connect, disconnect,
sleep, process exit, log lines) together with the updated client state where
the method mutates it.  Python strings are Lean `String`s; `str.endswith`
of a one-character suffix and the slice `s[:-1]` are embedded through the
underlying character list (`String.data`).  Log calls whose f-strings
interpolate opaque runtime objects (the paho client, userdata, flags) are
carried as `Effect.log` with the static text of the message.
-/

/-- Observable effects of the agent, in program order. -/
inductive Effect where
  | publish (topic : String) (payload : String) (qos : Nat) (retain : Bool)
  | willSet (topic : String) (payload : String) (qos : Nat) (retain : Bool)
  | usernamePwSet (user : String) (password : String)
  | registerSigintHandler
  | connect (host : String) (port : Int) (keepalive : Nat)
  | loopStart
  | loopStop
  | disconnect
  | sleep (seconds : Int)
  | exitProcess (code : Nat)
  | log (msg : String)
  | printLine (msg : String)
  deriving Repr, DecidableEq

/-- Python `s.endswith('/')`: the last character of `s` is `'/'`. -/
def endsWithSlash (s : String) : Bool :=
  s.data.getLast? == some '/'

/-- Python `s[:-1]`: `s` with its last character removed. -/
def pyDropLast (s : String) : String :=
  String.mk s.data.dropLast

/-- The normalization `__init__` applies to each configured topic prefix:
`s[:-1] if s.endswith('/') else s`. -/
def stripTrailingSlash (s : String) : String :=
  if endsWithSlash s then pyDropLast s else s

/-- State of the `MqttClient` object (`my_service.py`, class `MqttClient`). -/
structure MqttClient where
  mqttHost : String
  mqttPort : Int
  mqttUser : String
  mqttPassword : String
  discoveryTopicPrefix : String
  topicPrefix : String
  updateInterval : Int
  counter : Nat
  deriving Repr, DecidableEq

/-- `MqttClient.__init__` (lines 50-91): stores the configuration with both
topic prefixes normalized, registers the SIGINT handler, builds the paho
client with credentials and the last-will message on
`{topic_prefix}/status`, and sets `counter = 0`.  Returns the constructed
object and the actions performed during construction. -/
def MqttClient.init (mqttHost : String) (mqttPort : Int)
    (mqttUser mqttPassword dtp tp : String)
    (updateInterval : Int) : MqttClient × List Effect :=
  let storedDtp := if endsWithSlash dtp then pyDropLast dtp else dtp
  let storedTp := if endsWithSlash tp then pyDropLast tp else tp
  let mc : MqttClient :=
    { mqttHost := mqttHost
      mqttPort := mqttPort
      mqttUser := mqttUser
      mqttPassword := mqttPassword
      discoveryTopicPrefix := storedDtp
      topicPrefix := storedTp
      updateInterval := updateInterval
      counter := 0 }
  (mc, [Effect.registerSigintHandler,
        Effect.usernamePwSet mqttUser mqttPassword,
        Effect.willSet (storedTp ++ "/status") "offline" 0 true])

/-- `MqttClient.publish_discovery` (lines 112-114): a stub that only logs. -/
def MqttClient.publish_discovery (_mc : MqttClient) : List Effect :=
  [Effect.log "--> publish_discovery"]

/-- `MqttClient.on_connect` (lines 93-106): on a failure reason code logs an
error and exits the process with status 1; on success publishes `online`
retained on `{topic_prefix}/status` and calls `publish_discovery`. -/
def MqttClient.on_connect (mc : MqttClient) (rc : Int) : List Effect :=
  if rc != 0 then
    [Effect.log "--> on_connect",
     Effect.log ("Connection failed with reason code: " ++ toString rc),
     Effect.exitProcess 1]
  else
    [Effect.log "--> on_connect",
     Effect.log ("Connection successful with reason code: " ++ toString rc),
     Effect.log "Initial publishing of status",
     Effect.publish (mc.topicPrefix ++ "/status") "online" 0 true,
     Effect.log "Initial publishing of discovery"]
    ++ mc.publish_discovery

/-- `MqttClient.on_disconnect` (lines 108-110): stops the network loop. -/
def MqttClient.on_disconnect (_mc : MqttClient) (rc : Int) : List Effect :=
  [Effect.log ("--> on_disconnected - reason code: " ++ toString rc),
   Effect.loopStop]

/-- `MqttClient.regular_update` (lines 116-121): increments the counter,
then publishes `update:{counter}` retained on `{topic_prefix}/status`. -/
def MqttClient.regular_update (mc : MqttClient) : MqttClient × List Effect :=
  let mc' := { mc with counter := mc.counter + 1 }
  (mc', [Effect.log "--> regular_update",
         Effect.publish (mc.topicPrefix ++ "/status")
           ("update:" ++ toString mc'.counter) 0 true])

/-- `MqttClient.remove_discovery` (lines 123-125): a stub that only logs. -/
def MqttClient.remove_discovery (_mc : MqttClient) : List Effect :=
  [Effect.log "--> remove_discovery"]

/-- `MqttClient.signal_handler` (lines 159-167): publishes `goodbye` on
`{topic_prefix}/status` (with `retain=True` in the source), disconnects,
and exits the process with status 0. -/
def MqttClient.signal_handler (mc : MqttClient) : List Effect :=
  [Effect.log "received SIGINT",
   Effect.publish (mc.topicPrefix ++ "/status") "goodbye" 0 true,
   Effect.disconnect,
   Effect.log "--> clean exit",
   Effect.exitProcess 0]

/-- One iteration of the `while True` loop in `MqttClient.run` (lines
144-157), parameterized by the value `threading.active_count()` returns: if
exactly one thread is running, log an error and exit with status 1;
otherwise call `regular_update` and sleep for `update_interval` seconds. -/
def MqttClient.runIteration (mc : MqttClient) (activeThreadCount : Nat) :
    MqttClient × List Effect :=
  if activeThreadCount == 1 then
    (mc, [Effect.log "Only one thread running, should be at least two -> exiting.",
          Effect.exitProcess 1])
  else
    let mc' := mc.regular_update
    (mc'.1, [Effect.log "in loop: before sleep"] ++ mc'.2
            ++ [Effect.sleep mc.updateInterval, Effect.log "in loop: after sleep"])

/-- The part of `MqttClient.run` before the loop (lines 127-142): logs the
settings, connects to the broker, and starts the background network loop. -/
def MqttClient.runPrelude (mc : MqttClient) : List Effect :=
  [Effect.log "### SETTINGS: Start  #################################",
   Effect.log ("Connection:              " ++ mc.mqttUser ++ "@" ++ mc.mqttHost
     ++ ":" ++ toString mc.mqttPort),
   Effect.log ("Interval (s):            " ++ toString mc.updateInterval),
   Effect.log ("Discovery topic prefix:  " ++ mc.discoveryTopicPrefix),
   Effect.log ("Topic prefix:            " ++ mc.topicPrefix),
   Effect.log "### SETTINGS: End    #################################",
   Effect.connect mc.mqttHost mc.mqttPort 60,
   Effect.loopStart,
   Effect.log "before loop"]

/-- `n` successive calls of `regular_update`, collecting the actions. -/
def regularUpdates (mc : MqttClient) : Nat → MqttClient × List Effect
  | 0 => (mc, [])
  | n + 1 =>
      let step := mc.regular_update
      let rest := regularUpdates step.1 n
      (rest.1, step.2 ++ rest.2)

/-- The publish actions of a trace, in order. -/
def publishesIn (l : List Effect) : List Effect :=
  l.filter fun a => match a with
    | Effect.publish _ _ _ _ => true
    | _ => false

/-- `__version__ = "0.1.0"` (line 15). -/
def appVersion : String := "0.1.0"

/-- `version_callback` (lines 43-47): when the option value is true, prints
the version line and raises `typer.Exit()`, which terminates the process
with exit code 0. -/
def version_callback (value : Bool) : List Effect :=
  if value then
    [Effect.printLine ("My Service Start Version: " ++ appVersion),
     Effect.exitProcess 0]
  else []

/-- `main` (lines 170-233) applied to the resolved option values.  The
`version` option is declared with `is_eager=True`, so the CLI library runs
`version_callback` on its value before any other option is used; the
`typer.Exit` it raises ends the process there with exit code 0 and the body
of `main` never runs.  Otherwise the body constructs the `MqttClient` and
calls `run`; since `run`'s loop never returns, the trace is listed up to
and including the effects of `run` before its loop (`runPrelude`).  The
`debug` option only selects the log level and is not modelled. -/
def mainEntry (mqttHost : String) (mqttPort : Int)
    (mqttUser mqttPassword dtp tp : String) (updateInterval : Int)
    (version : Option Bool) : List Effect :=
  let vacts := version_callback (version.getD false)
  if version.getD false then
    vacts
  else
    let built := MqttClient.init mqttHost mqttPort mqttUser mqttPassword
      dtp tp updateInterval
    vacts ++ built.2 ++ built.1.runPrelude

/-- The two threads alive once `run` has called `loop_start`: the
foreground loop of `run` and the paho network thread. -/
inductive Thread where
  | fg
  | bg
  deriving Repr, DecidableEq

/-- Process state between `loop_start` and the first process exit: the
client object, plus whether the CONNACK of the initial `connect` is still
waiting to be processed by the network thread.  Nothing in the source
orders the loop iterations against the delivery of the CONNACK. -/
structure SysState where
  mc : MqttClient
  connPending : Bool
  deriving Repr, DecidableEq

/-- One scheduler step.  `bg`: the network thread processes the pending
CONNACK, firing `on_connect` with the success reason code 0 (later `bg`
steps have nothing left to deliver).  `fg`: the foreground loop runs one
iteration of `run`'s `while True` body; both threads are alive, so
`threading.active_count()` returns 2. -/
def sysStep (s : SysState) : Thread → SysState × List Effect
  | Thread.bg =>
      if s.connPending then
        ({ s with connPending := false }, s.mc.on_connect 0)
      else (s, [])
  | Thread.fg =>
      let step := s.mc.runIteration 2
      ({ s with mc := step.1 }, step.2)

/-- The effect trace of one interleaving, given as the finite list of
scheduler choices. -/
def sysTrace (s : SysState) : List Thread → List Effect
  | [] => []
  | t :: ts =>
      let step := sysStep s t
      step.2 ++ sysTrace step.1 ts

/-- The process state right after `connect` and `loop_start`. -/
def initialSys (mc : MqttClient) : SysState :=
  { mc := mc, connPending := true }

/-- Every publish and every will registration in `l` targets the topic
`tp ++ "/status"`. -/
def targetsOnlyStatus (tp : String) (l : List Effect) : Bool :=
  l.all fun a => match a with
    | Effect.publish t _ _ _ => t == tp ++ "/status"
    | Effect.willSet t _ _ _ => t == tp ++ "/status"
    | _ => true

/-- A concrete client, used to evaluate the model at specific inputs. -/
def mcTest : MqttClient :=
  (MqttClient.init "homeassistant.local" 1883 "mqttuser" "changeme"
    "homeassistant/sensor/foobar" "home/nodes/sensor/foobar" 300).1

/-- When a string ends in `'/'`, removing that character and appending
`"/"` gives the string back: the normalization removes exactly one
character. -/
theorem stripTrailingSlash_append_slash (s : String)
    (h : endsWithSlash s = true) : stripTrailingSlash s ++ "/" = s := by
  obtain ⟨l⟩ := s
  have hl : l.getLast? = some '/' := by
    simpa [endsWithSlash] using h
  have hdrop : l.dropLast ++ ['/'] = l :=
    List.dropLast_append_getLast? '/' hl
  simp only [stripTrailingSlash, h, if_true]
  show String.mk l.dropLast ++ "/" = String.mk l
  have hstep : String.mk l.dropLast ++ "/" = String.mk (l.dropLast ++ ['/']) := rfl
  rw [hstep, hdrop]

/-- When a string does not end in `'/'`, the normalization is the
identity. -/
theorem stripTrailingSlash_no_slash (s : String)
    (h : endsWithSlash s = false) : stripTrailingSlash s = s := by
  simp [stripTrailingSlash, h]

/-- `publishesIn` distributes over trace concatenation. -/
theorem publishesIn_append (l1 l2 : List Effect) :
    publishesIn (l1 ++ l2) = publishesIn l1 ++ publishesIn l2 := by
  simp [publishesIn, List.filter_append]

/-- C1 counterexample: with configured prefixes ending in two slashes the
constructor stores values that still end in `'/'`, and re-normalizing the
stored `topic_prefix` changes it — the claimed invariant and idempotence
fail. -/
theorem c1_counterexample :
    (MqttClient.init "h" 1883 "u" "p" "d//" "t//" 300).1.topicPrefix = "t/" ∧
    (MqttClient.init "h" 1883 "u" "p" "d//" "t//" 300).1.discoveryTopicPrefix = "d/" ∧
    endsWithSlash "t/" = true ∧
    stripTrailingSlash "t/" ≠ "t/" := by decide

/-- C1 (amended): the constructor stores `stripTrailingSlash` of each
configured prefix, which removes exactly ONE trailing slash: for an input
ending in `'/'` the stored value followed by `"/"` is the input again; an
input not ending in `'/'` is stored unchanged; and re-normalizing is the
identity precisely on values that do not end in `'/'`. -/
theorem c1_strip_one_trailing_slash (host user pw dtp tp s : String)
    (port ui : Int) :
    (MqttClient.init host port user pw dtp tp ui).1.topicPrefix
        = stripTrailingSlash tp ∧
    (MqttClient.init host port user pw dtp tp ui).1.discoveryTopicPrefix
        = stripTrailingSlash dtp ∧
    (endsWithSlash s = true → stripTrailingSlash s ++ "/" = s) ∧
    (endsWithSlash s = false → stripTrailingSlash s = s) ∧
    (endsWithSlash (stripTrailingSlash s) = false →
      stripTrailingSlash (stripTrailingSlash s) = stripTrailingSlash s) := by
  exact ⟨rfl, rfl, fun h => stripTrailingSlash_append_slash s h,
    fun h => stripTrailingSlash_no_slash s h,
    fun h => stripTrailingSlash_no_slash (stripTrailingSlash s) h⟩

/-- C1 witness: evaluating the amended statement at concrete prefixes. -/
theorem c1_strip_one_trailing_slash_witness :
    stripTrailingSlash "t/" ++ "/" = "t/" ∧ stripTrailingSlash "t" = "t" :=
  ⟨(c1_strip_one_trailing_slash "h" "u" "p" "d" "t" "t/" 1883 300).2.2.1 (by decide),
   (c1_strip_one_trailing_slash "h" "u" "p" "d" "t" "t" 1883 300).2.2.2.1 (by decide)⟩

/-- Shape of the trace of `n` successive `regular_update` calls: the
counter advances by exactly one per call and the publish of the i-th call
(0-based) carries payload `update:(counter + i + 1)`. -/
theorem regularUpdates_trace (mc : MqttClient) (n : Nat) :
    (regularUpdates mc n).1.counter = mc.counter + n ∧
    publishesIn (regularUpdates mc n).2 =
      (List.range n).map (fun i =>
        Effect.publish (mc.topicPrefix ++ "/status")
          ("update:" ++ toString (mc.counter + i + 1)) 0 true) := by
  induction n generalizing mc with
  | zero => simp [regularUpdates, publishesIn]
  | succ n ih =>
      obtain ⟨ihc, iht⟩ := ih (mc.regular_update).1
      have hcount : (mc.regular_update).1.counter = mc.counter + 1 := rfl
      have htp : (mc.regular_update).1.topicPrefix = mc.topicPrefix := rfl
      constructor
      · show (regularUpdates (mc.regular_update).1 n).1.counter = mc.counter + (n + 1)
        rw [ihc, hcount]
        omega
      · show publishesIn ((mc.regular_update).2
            ++ (regularUpdates (mc.regular_update).1 n).2) = _
        rw [publishesIn_append, iht, hcount, htp]
        have hstep : publishesIn (mc.regular_update).2 =
            [Effect.publish (mc.topicPrefix ++ "/status")
              ("update:" ++ toString (mc.counter + 1)) 0 true] := by
          simp [MqttClient.regular_update, publishesIn]
        rw [hstep, List.range_succ_eq_map, List.map_cons, List.map_map]
        simp only [List.singleton_append, Nat.add_zero, Nat.succ_eq_add_one]
        refine congrArg (List.cons _) ?_
        apply List.map_congr_left
        intro i _
        simp only [Function.comp_apply]
        have h3 : mc.counter + 1 + i + 1 = mc.counter + (i + 1) + 1 := by omega
        rw [h3]

/-- C2: starting from a freshly constructed client, for every N with
1 ≤ N ≤ n the Nth publish among n `regular_update` calls is `update:N`,
retained with QoS 0, on `{topic_prefix}/status`; after n calls the counter
is exactly n (so it starts at 1 on the first update, advances by exactly 1
per call, and never resets). -/
theorem c2_nth_update_publish (host user pw dtp tp : String) (port ui : Int)
    (n N : Nat) (hN : 1 ≤ N) (hn : N ≤ n) :
    (publishesIn (regularUpdates
        (MqttClient.init host port user pw dtp tp ui).1 n).2)[N - 1]? =
      some (Effect.publish
        ((MqttClient.init host port user pw dtp tp ui).1.topicPrefix ++ "/status")
        ("update:" ++ toString N) 0 true) ∧
    (regularUpdates (MqttClient.init host port user pw dtp tp ui).1 n).1.counter
      = n := by
  obtain ⟨hc, ht⟩ :=
    regularUpdates_trace (MqttClient.init host port user pw dtp tp ui).1 n
  have hc0 : (MqttClient.init host port user pw dtp tp ui).1.counter = 0 := rfl
  refine ⟨?_, by rw [hc, hc0]; exact Nat.zero_add n⟩
  have harg : (MqttClient.init host port user pw dtp tp ui).1.counter
      + (N - 1) + 1 = N := by
    rw [hc0]; omega
  rw [ht, List.getElem?_map, List.getElem?_range (by omega : N - 1 < n)]
  simp only [Option.map_some']
  rw [harg]

/-- C2 witness: three updates from a fresh client; the 2nd publish is
`update:2` and the counter ends at 3. -/
theorem c2_nth_update_publish_witness :
    (publishesIn (regularUpdates
        (MqttClient.init "h" 1883 "u" "p" "d" "t" 300).1 3).2)[2 - 1]? =
      some (Effect.publish
        ((MqttClient.init "h" 1883 "u" "p" "d" "t" 300).1.topicPrefix ++ "/status")
        ("update:" ++ toString 2) 0 true) ∧
    (regularUpdates (MqttClient.init "h" 1883 "u" "p" "d" "t" 300).1 3).1.counter
      = 3 :=
  c2_nth_update_publish "h" "u" "p" "d" "t" 1883 300 3 2 (by decide) (by decide)

/-- C3 counterexample: the `goodbye` publish issued by `signal_handler` is
retained (`retain=True` on line 162 of the source), contradicting the
claimed `retained=False`. -/
theorem c3_counterexample :
    Effect.publish "home/nodes/sensor/foobar/status" "goodbye" 0 true
      ∈ mcTest.signal_handler ∧
    Effect.publish "home/nodes/sensor/foobar/status" "goodbye" 0 false
      ∉ mcTest.signal_handler := by decide

/-- C3 (amended): on interrupt the handler performs exactly one publish —
payload `goodbye`, QoS 0, RETAINED — on `{topic_prefix}/status`; the
disconnect comes after that publish, the final action is a process exit
with code 0, and the handler performs no update publish. -/
theorem c3_goodbye_disconnect_exit (mc : MqttClient) :
    publishesIn mc.signal_handler =
      [Effect.publish (mc.topicPrefix ++ "/status") "goodbye" 0 true] ∧
    (∃ l1 l2 l3, mc.signal_handler
        = l1 ++ [Effect.publish (mc.topicPrefix ++ "/status") "goodbye" 0 true]
          ++ l2 ++ [Effect.disconnect] ++ l3) ∧
    mc.signal_handler.getLast? = some (Effect.exitProcess 0) := by
  refine ⟨?_,
    ⟨[Effect.log "received SIGINT"], [],
     [Effect.log "--> clean exit", Effect.exitProcess 0], rfl⟩, rfl⟩
  simp [MqttClient.signal_handler, publishesIn]

/-- C4: on a non-zero (failure) reason code the connect callback performs
no publish at all — in particular neither `online` nor any update — and
its final action is a process exit with code 1. -/
theorem c4_connect_failure_exits (mc : MqttClient) (rc : Int) (h : rc ≠ 0) :
    publishesIn (mc.on_connect rc) = [] ∧
    (mc.on_connect rc).getLast? = some (Effect.exitProcess 1) := by
  have hb : (rc != 0) = true := by simpa using h
  constructor <;> simp [MqttClient.on_connect, hb, publishesIn]

/-- C4 witness: the failure branch evaluated at reason code 5. -/
theorem c4_connect_failure_exits_witness :
    publishesIn (mcTest.on_connect 5) = [] ∧
    (mcTest.on_connect 5).getLast? = some (Effect.exitProcess 1) :=
  c4_connect_failure_exits mcTest 5 (by decide)

/-- C5: on reason code 0 the connect callback performs exactly one publish
— `online`, retained, QoS 0, on `{topic_prefix}/status` — and afterwards
invokes `publish_discovery`, whose whole trace is one log line (a no-op
apart from the log). -/
theorem c5_connect_success_online (mc : MqttClient) :
    publishesIn (mc.on_connect 0) =
      [Effect.publish (mc.topicPrefix ++ "/status") "online" 0 true] ∧
    (∃ pre, mc.on_connect 0 = pre ++ mc.publish_discovery ∧
      Effect.publish (mc.topicPrefix ++ "/status") "online" 0 true ∈ pre) ∧
    mc.publish_discovery = [Effect.log "--> publish_discovery"] := by
  refine ⟨?_, ⟨[Effect.log "--> on_connect",
    Effect.log ("Connection successful with reason code: " ++ toString (0 : Int)),
    Effect.log "Initial publishing of status",
    Effect.publish (mc.topicPrefix ++ "/status") "online" 0 true,
    Effect.log "Initial publishing of discovery"], rfl, by simp⟩, rfl⟩
  simp [MqttClient.on_connect, MqttClient.publish_discovery, publishesIn]

/-- C6: with the version option set, the program prints the version line
and exits with code 0; the trace contains nothing else, so the agent is
never constructed (no will registration, no SIGINT handler) and no
connection is attempted. -/
theorem c6_version_short_circuit (host user pw dtp tp : String)
    (port ui : Int) (version : Option Bool) (h : version = some true) :
    mainEntry host port user pw dtp tp ui version =
      [Effect.printLine ("My Service Start Version: " ++ appVersion),
       Effect.exitProcess 0] ∧
    (∀ hst p k, Effect.connect hst p k ∉ mainEntry host port user pw dtp tp ui version) ∧
    (∀ t pl q r, Effect.willSet t pl q r ∉ mainEntry host port user pw dtp tp ui version) ∧
    Effect.registerSigintHandler ∉ mainEntry host port user pw dtp tp ui version := by
  subst h
  refine ⟨rfl, ?_, ?_, ?_⟩ <;> simp [mainEntry, version_callback]

/-- C6 witness: the version trace at concrete option values. -/
theorem c6_version_short_circuit_witness :
    mainEntry "h" 1883 "u" "p" "d" "t" 300 (some true) =
      [Effect.printLine ("My Service Start Version: " ++ appVersion),
       Effect.exitProcess 0] :=
  (c6_version_short_circuit "h" "u" "p" "d" "t" 1883 300 (some true) rfl).1

/-- C7: each iteration of `run`'s loop first consults the thread count:
with exactly one running thread the iteration performs no publish, leaves
the client unchanged and ends in a process exit with code 1; with any
other count it performs exactly one publish — the update — and the sleep
of `update_interval` seconds immediately follows that publish. -/
theorem c7_run_loop_iteration (mc : MqttClient) (tc : Nat) :
    ((mc.runIteration 1).1 = mc ∧
     publishesIn (mc.runIteration 1).2 = [] ∧
     (mc.runIteration 1).2.getLast? = some (Effect.exitProcess 1)) ∧
    (tc ≠ 1 →
      publishesIn (mc.runIteration tc).2 =
        [Effect.publish (mc.topicPrefix ++ "/status")
          ("update:" ++ toString (mc.counter + 1)) 0 true] ∧
      (mc.runIteration tc).1.counter = mc.counter + 1 ∧
      ∃ l1 l2, (mc.runIteration tc).2 =
        l1 ++ Effect.publish (mc.topicPrefix ++ "/status")
            ("update:" ++ toString (mc.counter + 1)) 0 true
          :: Effect.sleep mc.updateInterval :: l2) := by
  constructor
  · refine ⟨rfl, ?_, rfl⟩
    simp [MqttClient.runIteration, publishesIn]
  · intro h
    have hb : (tc == 1) = false := by simpa using h
    refine ⟨?_, ?_,
      ⟨[Effect.log "in loop: before sleep", Effect.log "--> regular_update"],
       [Effect.log "in loop: after sleep"], ?_⟩⟩
    · simp [MqttClient.runIteration, hb, MqttClient.regular_update, publishesIn]
    · simp [MqttClient.runIteration, hb, MqttClient.regular_update]
    · simp [MqttClient.runIteration, hb, MqttClient.regular_update]

/-- C7 witness: one loop iteration of the concrete client with two threads
alive publishes exactly `update:1` and advances the counter to 1. -/
theorem c7_run_loop_iteration_witness :
    publishesIn (mcTest.runIteration 2).2 =
      [Effect.publish (mcTest.topicPrefix ++ "/status")
        ("update:" ++ toString (mcTest.counter + 1)) 0 true] ∧
    (mcTest.runIteration 2).1.counter = mcTest.counter + 1 :=
  ⟨((c7_run_loop_iteration mcTest 2).2 (by decide)).1,
   ((c7_run_loop_iteration mcTest 2).2 (by decide)).2.1⟩

/-- C8: the construction trace registers the last-will message `offline`,
QoS 0, retained, on the topic built from the NORMALIZED topic prefix, and
contains no connect effect: the will is in place before any connection is
opened (the connect happens later, in `run`). -/
theorem c8_will_set_at_construction (host user pw dtp tp : String)
    (port ui : Int) :
    Effect.willSet
        ((MqttClient.init host port user pw dtp tp ui).1.topicPrefix ++ "/status")
        "offline" 0 true ∈ (MqttClient.init host port user pw dtp tp ui).2 ∧
    (MqttClient.init host port user pw dtp tp ui).1.topicPrefix
        = stripTrailingSlash tp ∧
    ((MqttClient.init host port user pw dtp tp ui).2.all fun a =>
      match a with
      | Effect.connect _ _ _ => false
      | _ => true) = true := by
  refine ⟨?_, rfl, ?_⟩
  · simp [MqttClient.init]
  · simp [MqttClient.init]

/-- With no CONNACK pending, the interleaved system only ever publishes
updates: every publish in its trace is `update:k` for some k. -/
theorem sysTrace_noPending_updates (sched : List Thread) (s : SysState)
    (hp : s.connPending = false) :
    ∀ a ∈ publishesIn (sysTrace s sched), ∃ k : Nat,
      a = Effect.publish (s.mc.topicPrefix ++ "/status")
            ("update:" ++ toString k) 0 true := by
  induction sched generalizing s with
  | nil =>
      simp [sysTrace, publishesIn]
  | cons t ts ih =>
      cases t with
      | bg =>
          intro a ha
          simp only [sysTrace, sysStep, hp, if_false, Bool.false_eq_true,
            List.nil_append] at ha
          exact ih s hp a ha
      | fg =>
          intro a ha
          simp only [sysTrace] at ha
          rw [publishesIn_append] at ha
          rcases List.mem_append.mp ha with h1 | h2
          · refine ⟨s.mc.counter + 1, ?_⟩
            have hstep : publishesIn (sysStep s Thread.fg).2 =
                [Effect.publish (s.mc.topicPrefix ++ "/status")
                  ("update:" ++ toString (s.mc.counter + 1)) 0 true] := by
              simp [sysStep, MqttClient.runIteration, MqttClient.regular_update,
                publishesIn]
            rw [hstep] at h1
            simpa using h1
          · have hp' : (sysStep s Thread.fg).1.connPending = false := hp
            have htp : (sysStep s Thread.fg).1.mc.topicPrefix
                = s.mc.topicPrefix := rfl
            obtain ⟨k, hk⟩ := ih (sysStep s Thread.fg).1 hp' a h2
            exact ⟨k, by rw [hk, htp]⟩

/-- C9 counterexample: in the interleaving where the foreground loop runs
one iteration before the network thread processes the CONNACK, the publish
`update:1` strictly precedes the `online` publish — the claimed
online-before-any-update ordering does not hold for every interleaving. -/
theorem c9_counterexample :
    publishesIn (sysTrace (initialSys mcTest) [Thread.fg, Thread.bg]) =
      [Effect.publish "home/nodes/sensor/foobar/status" "update:1" 0 true,
       Effect.publish "home/nodes/sensor/foobar/status" "online" 0 true] := by
  decide

/-- C9 (amended): the success callback fires at most once, so in every
interleaving in which the network thread processes the connect before the
first foreground loop iteration, the publish trace is exactly one retained
`online` followed only by `update:k` publishes — there `online` precedes
every periodic update.  The source has no synchronization forcing this
order in the remaining interleavings. -/
theorem c9_online_first_when_bg_first (mc : MqttClient) (rest : List Thread) :
    ∃ tail,
      publishesIn (sysTrace (initialSys mc) (Thread.bg :: rest)) =
        Effect.publish (mc.topicPrefix ++ "/status") "online" 0 true :: tail ∧
      ∀ a ∈ tail, ∃ k : Nat,
        a = Effect.publish (mc.topicPrefix ++ "/status")
              ("update:" ++ toString k) 0 true := by
  refine ⟨publishesIn (sysTrace ⟨mc, false⟩ rest), ?_, ?_⟩
  · have h1 : sysTrace (initialSys mc) (Thread.bg :: rest)
        = mc.on_connect 0 ++ sysTrace ⟨mc, false⟩ rest := rfl
    have h2 : publishesIn (mc.on_connect 0) =
        [Effect.publish (mc.topicPrefix ++ "/status") "online" 0 true] := by
      simp [MqttClient.on_connect, MqttClient.publish_discovery, publishesIn]
    rw [h1, publishesIn_append, h2]
    rfl
  · exact sysTrace_noPending_updates rest ⟨mc, false⟩ rfl

/-- C10: every publish and will registration any operation ever performs —
construction, the connect and disconnect callbacks, the discovery stubs,
`regular_update`, a full loop iteration, `run`'s prelude, and the interrupt
handler — targets the single topic `{topic_prefix}/status`; in particular
the stored `discovery_topic_prefix` is never used in any publish. -/
theorem c10_single_status_topic (host user pw dtp tp : String)
    (port ui : Int) (mc : MqttClient) (rc : Int) (tc : Nat) :
    targetsOnlyStatus (MqttClient.init host port user pw dtp tp ui).1.topicPrefix
        (MqttClient.init host port user pw dtp tp ui).2 = true ∧
    targetsOnlyStatus mc.topicPrefix (mc.on_connect rc) = true ∧
    targetsOnlyStatus mc.topicPrefix (mc.on_disconnect rc) = true ∧
    targetsOnlyStatus mc.topicPrefix mc.publish_discovery = true ∧
    targetsOnlyStatus mc.topicPrefix mc.remove_discovery = true ∧
    targetsOnlyStatus mc.topicPrefix (mc.regular_update).2 = true ∧
    targetsOnlyStatus mc.topicPrefix (mc.runIteration tc).2 = true ∧
    targetsOnlyStatus mc.topicPrefix mc.runPrelude = true ∧
    targetsOnlyStatus mc.topicPrefix mc.signal_handler = true := by
  refine ⟨?_, ?_, ?_, ?_, ?_, ?_, ?_, ?_, ?_⟩
  · simp [MqttClient.init, targetsOnlyStatus]
  · cases h : rc != 0 <;>
      simp [MqttClient.on_connect, MqttClient.publish_discovery, h,
        targetsOnlyStatus]
  · simp [MqttClient.on_disconnect, targetsOnlyStatus]
  · simp [MqttClient.publish_discovery, targetsOnlyStatus]
  · simp [MqttClient.remove_discovery, targetsOnlyStatus]
  · simp [MqttClient.regular_update, targetsOnlyStatus]
  · cases h : tc == 1 <;>
      simp [MqttClient.runIteration, MqttClient.regular_update, h,
        targetsOnlyStatus]
  · simp [MqttClient.runPrelude, targetsOnlyStatus]
  · simp [MqttClient.signal_handler, targetsOnlyStatus]
